import Mathlib

/-!
Shallow embedding of the `abs_scrape` repository: the Grist HTTP client
(`grist_client.py`), the integration driver (`grist_integration.py`), and the
three sample-board generator scripts.  Pure Python functions become Lean
functions; the remote Grist service and the HTTP transport become explicit
state records threaded through the client operations, with every outbound
request logged.  Python dicts are modeled as association lists in insertion
order with dict-update semantics where the source builds dicts key by key.
-/

namespace AbsScrape

/-- A Python value as it occurs in scraped records.  The constructors mirror
the `isinstance` classes that `infer_columns_from_data` discriminates on:
`bool`, `int`, `float`, `datetime`, `str`, `None`, and anything else. -/
inductive PyValue where
  | vBool  : Bool → PyValue
  | vInt   : Int → PyValue
  | vFloat : PyValue
  | vDatetime : PyValue
  | vStr   : String → PyValue
  | vNone  : PyValue
  | vOther : PyValue
deriving DecidableEq, Repr

/-- A Python dict record: keys with values, in insertion order. -/
abbrev Record := List (String × PyValue)

/-- The keys of a record, in order (`dict.keys()`). -/
def recordKeys (r : Record) : List String := r.map Prod.fst

/-- `isinstance(value, bool)`. -/
def isinstanceBool : PyValue → Bool
  | .vBool _ => true
  | _ => false

/-- `isinstance(value, int)`.  Python's `bool` is a subclass of `int`, so a
boolean also satisfies this test. -/
def isinstanceInt : PyValue → Bool
  | .vBool _ => true
  | .vInt _ => true
  | _ => false

/-- `isinstance(value, float)`. -/
def isinstanceFloat : PyValue → Bool
  | .vFloat => true
  | _ => false

/-- `isinstance(value, datetime)`. -/
def isinstanceDatetime : PyValue → Bool
  | .vDatetime => true
  | _ => false

/-- `isinstance(value, str)`. -/
def isinstanceStr : PyValue → Bool
  | .vStr _ => true
  | _ => false

/-- The underlying string of a string value (only inspected under an
`isinstanceStr` guard, mirroring the narrowed `value` in the source). -/
def strVal : PyValue → String
  | .vStr s => s
  | _ => ""

/-- `value.replace('Z', '+00:00')`: every occurrence of the character `Z`
is replaced by `+00:00`. -/
def replaceZ (s : String) : String :=
  String.mk (s.data.foldr
    (fun c acc => if c = 'Z' then '+' :: '0' :: '0' :: ':' :: '0' :: '0' :: acc else c :: acc) [])

/-- The body of the type-inference loop in `infer_columns_from_data`
(grist_client.py lines 210-227): a chain of `isinstance` tests in source
order, with the string case asking whether `datetime.fromisoformat` accepts
the `Z`-normalized string.  `fromisoformat` is Python library behaviour, not
repository code, so it is abstracted as the predicate `iso`. -/
def inferColType (iso : String → Bool) (value : PyValue) : String :=
  if isinstanceBool value then "Bool"
  else if isinstanceInt value then "Int"
  else if isinstanceFloat value then "Numeric"
  else if isinstanceDatetime value then "DateTime"
  else if isinstanceStr value then
    if iso (replaceZ (strVal value)) then "DateTime" else "Text"
  else "Text"

/-- A column definition dict as passed around the client:
`{"id": ..., "type": ...}`, where the `"type"` key may be absent
(`col.get("type", "Text")` defaults it). -/
structure ColSpec where
  id : String
  typ : Option String
deriving DecidableEq, Repr

/-- `col.get("type", "Text")`. -/
def colType (c : ColSpec) : String := c.typ.getD "Text"

/-- `infer_columns_from_data` (grist_client.py lines 194-234): empty input
yields no columns; otherwise one column per key of the first record, in key
order, typed by `inferColType` on that key's value. -/
def infer_columns_from_data (iso : String → Bool) (data : List Record) : List ColSpec :=
  match data with
  | [] => []
  | sample :: _ =>
      sample.map (fun kv => { id := kv.1, typ := some (inferColType iso kv.2) })

/-- Python dict update `d[k] = v` on an insertion-ordered association list:
an existing key keeps its position and gets the new value; a fresh key is
appended at the end. -/
def dictInsert {β : Type} (k : String) (v : β) : List (String × β) → List (String × β)
  | [] => [(k, v)]
  | (k', v') :: rest => if k' = k then (k, v) :: rest else (k', v') :: dictInsert k v rest

/-- The keys of an insertion-ordered dict. -/
def dictKeys {β : Type} (d : List (String × β)) : List String := d.map Prod.fst

/-- Modeled schema and contents of one remote Grist table: its columns
(id and type, in order) and its rows. -/
structure TableState where
  cols : List (String × String)
  rows : List Record
deriving DecidableEq, Repr

/-- Modeled remote state of one Grist document: its tables, keyed by table id. -/
structure DocState where
  tables : List (String × TableState)
deriving DecidableEq, Repr

/-- One outbound HTTP request of the client, by endpoint shape.  GET requests
are logged too, so that claims about which mutating requests are issued are
stated against the full request trace. -/
inductive Request where
  | getTables : Request
  | getColumns : String → Request
  | postTable : String → List (String × String) → Request
  | patchColumns : String → List (String × String) → Request
  | postRecords : String → List Record → Request
  | getDocs : Request
  | postDoc : String → Request
deriving DecidableEq, Repr

/-- Is a request a table-creation request (`POST /docs/{doc}/tables`)? -/
def Request.isPostTable : Request → Bool
  | .postTable _ _ => true
  | _ => false

/-- Is a request a column-addition request
(`PATCH /docs/{doc}/tables/{table}/columns`)? -/
def Request.isPatchColumns : Request → Bool
  | .patchColumns _ _ => true
  | _ => false

/-- Is a request a document-creation request (`POST /workspaces/{ws}/docs`)? -/
def Request.isPostDoc : Request → Bool
  | .postDoc _ => true
  | _ => false

/-- `list_tables` response on the modeled state: the table ids. -/
def listTables (doc : DocState) : List String := doc.tables.map Prod.fst

/-- The modeled schema of a table (`get_table_schema` response); absent
tables read as an empty schema, but the client only asks after listing. -/
def lookupTable (doc : DocState) (tid : String) : TableState :=
  (doc.tables.lookup tid).getD { cols := [], rows := [] }

/-- The column ids of a table in the modeled state. -/
def tableColIds (doc : DocState) (tid : String) : List String :=
  (lookupTable doc tid).cols.map Prod.fst

/-- The `columns_data` dict built in `create_table` (grist_client.py lines
119-121): keyed by `col["id"]`, value `col.get("type", "Text")`, with dict
update semantics on duplicate ids. -/
def columns_data (columns : List ColSpec) : List (String × String) :=
  columns.foldl (fun acc c => dictInsert c.id (colType c) acc) []

/-- `create_table` (grist_client.py lines 108-128): one
`POST /docs/{doc}/tables` request; the modeled server adds the table with
exactly the `columns_data` columns and no rows. -/
def create_table (doc : DocState) (table_id : String) (columns : List ColSpec) :
    DocState × List Request :=
  let cdata := columns_data columns
  ({ tables := doc.tables ++ [(table_id, { cols := cdata, rows := [] })] },
   [.postTable table_id cdata])

/-- The `new_cols` dict built in `ensure_table` (grist_client.py lines
145-148): the required columns whose id is not in the existing schema, as a
dict keyed by id with defaulted type. -/
def newColsFor (existingCols : List String) (columns : List ColSpec) :
    List (String × String) :=
  columns.foldl
    (fun acc c => if existingCols.contains c.id then acc else dictInsert c.id (colType c) acc)
    []

/-- The modeled server effect of `PATCH .../columns`: the listed columns are
appended to the table's schema. -/
def patchEffect (doc : DocState) (tid : String) (newCols : List (String × String)) : DocState :=
  { tables := doc.tables.map
      (fun nt => if nt.1 = tid then (nt.1, { nt.2 with cols := nt.2.cols ++ newCols }) else nt) }

/-- `ensure_table` (grist_client.py lines 130-153): list the tables; if the
table is absent, create it; otherwise fetch its schema and PATCH in the
missing required columns, only when there are any. -/
def ensure_table (doc : DocState) (table_id : String) (columns : List ColSpec) :
    DocState × List Request :=
  let tables := listTables doc
  if tables.contains table_id then
    let existing := lookupTable doc table_id
    let existing_cols := existing.cols.map Prod.fst
    let new_cols := newColsFor existing_cols columns
    if new_cols.isEmpty then
      (doc, [.getTables, .getColumns table_id])
    else
      (patchEffect doc table_id new_cols,
       [.getTables, .getColumns table_id, .patchColumns table_id new_cols])
  else
    let created := create_table doc table_id columns
    (created.1, .getTables :: created.2)

/-- The modeled server effect of `POST .../records`: the records are appended
to the table's rows; the response carries the new rows' 1-based row ids. -/
def add_records (doc : DocState) (table_id : String) (records : List Record) :
    DocState × List Request × List Nat :=
  let t := lookupTable doc table_id
  let ids := (List.range records.length).map (fun i => t.rows.length + i + 1)
  ({ tables := doc.tables.map
      (fun nt => if nt.1 = table_id then (nt.1, { nt.2 with rows := nt.2.rows ++ records }) else nt) },
   [.postRecords table_id records], ids)

/-- `upsert_records` (grist_client.py lines 171-191): with `key_columns`
absent it adds the records; the other branch is a TODO in the source and
also just adds the records. -/
def upsert_records (doc : DocState) (table_id : String) (records : List Record)
    (key_columns : Option (List String)) : DocState × List Request × List Nat :=
  match key_columns with
  | none => add_records doc table_id records
  | some _ => add_records doc table_id records

/-- A document descriptor as returned by the workspace listing. -/
structure DocInfo where
  id : String
  name : String
deriving DecidableEq, Repr

/-- `get_or_create_document` (grist_client.py lines 73-97): scan the listed
documents in order and return the first whose `"name"` equals `doc_name`;
only when none matches, POST a creation request.  The server-assigned id of
a newly created document is the parameter `freshId`; the modeled workspace
listing after the call is also returned. -/
def get_or_create_document (docs : List DocInfo) (doc_name freshId : String) :
    DocInfo × List DocInfo × List Request :=
  match docs.find? (fun d => d.name = doc_name) with
  | some d => (d, docs, [.getDocs])
  | none =>
      let newDoc : DocInfo := { id := freshId, name := doc_name }
      (newDoc, docs ++ [newDoc], [.getDocs, .postDoc doc_name])

/-- An HTTP response: a status code and a parsed JSON body. -/
structure HttpResponse where
  status : Nat
  body : PyValue
deriving DecidableEq, Repr

/-- The HTTP transport: an oracle giving the response to the n-th request
issued so far, a running request count, and the log of issued
`(method, url)` pairs. -/
structure HttpState where
  oracle : Nat → HttpResponse
  count : Nat
  log : List (String × String)

/-- `requests.request(method, url, ...)`: exactly one request goes on the
wire and its response comes from the oracle. -/
def httpSend (hs : HttpState) (method url : String) : HttpResponse × HttpState :=
  (hs.oracle hs.count,
   { hs with count := hs.count + 1, log := hs.log ++ [(method, url)] })

/-- The error raised by `response.raise_for_status()`. -/
inductive HttpError where
  | statusError : Nat → HttpError
deriving DecidableEq, Repr

/-- `response.raise_for_status()`: raises exactly when the status code is a
client or server error (4xx or 5xx). -/
def raise_for_status (r : HttpResponse) : Except HttpError Unit :=
  if 400 ≤ r.status then .error (.statusError r.status) else .ok ()

/-- `server.rstrip('/')`: all trailing slashes removed. -/
def rstripSlash (s : String) : String :=
  String.mk (s.data.reverse.dropWhile (fun c => c = '/')).reverse

/-- The client configuration built in `GristClient.__init__`. -/
structure GristClientCfg where
  api_key : String
  server : String
  org : String
deriving DecidableEq, Repr

/-- `self.base_url = f"{self.server}/api"` with the server already
slash-stripped. -/
def base_url (c : GristClientCfg) : String := rstripSlash c.server ++ "/api"

/-- `GristClient._request` (grist_client.py lines 39-44): build the url,
issue one request through the transport, raise for a non-success status,
otherwise return the response body. -/
def _request (c : GristClientCfg) (hs : HttpState) (method endpoint : String) :
    Except HttpError PyValue × HttpState :=
  let url := base_url c ++ endpoint
  let sent := httpSend hs method url
  match raise_for_status sent.1 with
  | .error e => (.error e, sent.2)
  | .ok _ => (.ok sent.1.body, sent.2)

/-- The modeled remote state seen by `send_to_grist`: the documents of the
default workspace and each document's tables, keyed by document id. -/
structure WorkspaceState where
  docs : List DocInfo
  docTables : List (String × DocState)
deriving DecidableEq, Repr

/-- The tables of a document in the modeled workspace. -/
def docTablesOf (st : WorkspaceState) (did : String) : DocState :=
  (st.docTables.lookup did).getD { tables := [] }

/-- The timestamp loop in `send_to_grist` (grist_integration.py lines
93-96): every record without a `"scraped_at"` key gets one, set to the
single timestamp taken before the loop; records that have the key are left
alone. -/
def addScrapedAt (timestamp : String) (data : List Record) : List Record :=
  data.map (fun r =>
    if (recordKeys r).contains "scraped_at" then r
    else r ++ [("scraped_at", PyValue.vStr timestamp)])

/-- The outcome of a `send_to_grist` run: the final modeled remote state,
the full request trace, whether a `GristClient` was constructed, the records
handed to the upload call, and the upload response. -/
structure SendOutcome where
  state : WorkspaceState
  requests : List Request
  clientConstructed : Bool
  uploaded : Option (List Record)
  result : Option (List Nat)

/-- `send_to_grist` (grist_integration.py lines 44-106): return at once on
empty data, before constructing a client; otherwise get or create the
document, infer columns, ensure the table, ensure a `scraped_at DateTime`
column when the inferred columns lack one, stamp the records, and add or
upsert them.  `datetime.now().isoformat()` is the parameter `timestamp`,
taken once. -/
def send_to_grist (iso : String → Bool) (st : WorkspaceState) (data : List Record)
    (doc_name table_name : String) (upsert : Bool) (key_columns : Option (List String))
    (timestamp freshId : String) : SendOutcome :=
  if data.isEmpty then
    { state := st, requests := [], clientConstructed := false,
      uploaded := none, result := none }
  else
    let gocd := get_or_create_document st.docs doc_name freshId
    let doc := gocd.1
    let docs' := gocd.2.1
    let columns := infer_columns_from_data iso data
    let dt0 := docTablesOf st doc.id
    let et1 := ensure_table dt0 table_name columns
    let et2 :=
      if (columns.map ColSpec.id).contains "scraped_at" then (et1.1, ([] : List Request))
      else ensure_table et1.1 table_name [{ id := "scraped_at", typ := some "DateTime" }]
    let stamped := addScrapedAt timestamp data
    let sent :=
      if upsert then upsert_records et2.1 table_name stamped key_columns
      else add_records et2.1 table_name stamped
    { state := { docs := docs', docTables := dictInsert doc.id sent.1 st.docTables },
      requests := gocd.2.2 ++ et1.2 ++ et2.2 ++ sent.2.1,
      clientConstructed := true,
      uploaded := some stamped,
      result := some sent.2.2 }

/-- What an Excel sheet written by a generator script was built from: the
generated records, the column-mapping reference table, or the instructions
reference table. -/
inductive SheetSrc where
  | records : SheetSrc
  | columnMapping : SheetSrc
  | instructions : SheetSrc
deriving DecidableEq, Repr

/-- One sheet of a written workbook: its name and what it holds. -/
structure Sheet where
  name : String
  src : SheetSrc
deriving DecidableEq, Repr

/-- The workbook written by `create_monday_import_file`
(create_monday_board.py lines 96-131): the data sheet plus the
`Column Mapping` and `Instructions` reference sheets. -/
def create_monday_import_file_sheets : List Sheet :=
  [{ name := "ABS Shift Data", src := .records },
   { name := "Column Mapping", src := .columnMapping },
   { name := "Instructions", src := .instructions }]

/-- The workbook written by `create_sample_board.main`
(create_sample_board.py lines 77-84): a single data sheet. -/
def create_sample_board_sheets : List Sheet :=
  [{ name := "ABS Shift Data", src := .records }]

/-- The workbook written by `create_msm_board.main`
(create_msm_board.py lines 85-92): a single data sheet. -/
def create_msm_board_sheets : List Sheet :=
  [{ name := "MSM Data", src := .records }]

/-- Does a workbook contain a sheet holding the generated records? -/
def hasRecordsSheet (f : List Sheet) : Bool := f.any (fun s => s.src = .records)

/-- Does a workbook contain an auxiliary reference sheet (one not holding
the generated records)? -/
def hasAuxiliarySheet (f : List Sheet) : Bool := f.any (fun s => s.src ≠ .records)

/-! ### Helper lemmas about dict operations and the modeled state -/

theorem dictKeys_dictInsert {β : Type} (k : String) (v : β) (d : List (String × β)) (x : String) :
    x ∈ dictKeys (dictInsert k v d) ↔ x = k ∨ x ∈ dictKeys d := by
  induction d with
  | nil => simp [dictInsert, dictKeys]
  | cons hd tl ih =>
    obtain ⟨k', v'⟩ := hd
    by_cases hk : k' = k
    · subst hk
      simp [dictInsert, dictKeys]
    · simp only [dictInsert, if_neg hk, dictKeys, List.map_cons, List.mem_cons] at *
      tauto

theorem mem_dictInsert_sub {β : Type} (k : String) (v : β) (d : List (String × β))
    (p : String × β) : p ∈ dictInsert k v d → p = (k, v) ∨ p ∈ d := by
  induction d with
  | nil => simp [dictInsert]
  | cons hd tl ih =>
    obtain ⟨k', v'⟩ := hd
    by_cases hk : k' = k
    · subst hk
      intro h
      have h2 : p ∈ (k', v) :: tl := by simpa [dictInsert] using h
      rcases List.mem_cons.mp h2 with h' | h'
      · exact Or.inl h'
      · exact Or.inr (List.mem_cons_of_mem _ h')
    · simp only [dictInsert, if_neg hk, List.mem_cons]
      rintro (h | h)
      · exact Or.inr (Or.inl h)
      · rcases ih h with h' | h'
        · exact Or.inl h'
        · exact Or.inr (Or.inr h')

theorem keys_columns_data_aux (columns : List ColSpec) (acc : List (String × String))
    (x : String) :
    (x ∈ dictKeys (columns.foldl (fun acc c => dictInsert c.id (colType c) acc) acc)) ↔
      x ∈ dictKeys acc ∨ ∃ c ∈ columns, c.id = x := by
  induction columns generalizing acc with
  | nil => simp
  | cons c cs ih =>
    rw [List.foldl_cons, ih, dictKeys_dictInsert]
    simp only [List.mem_cons]
    constructor
    · rintro (⟨h | h⟩ | ⟨c', hc', hx⟩)
      · exact Or.inr ⟨c, Or.inl rfl, h.symm⟩
      · exact Or.inl h
      · exact Or.inr ⟨c', Or.inr hc', hx⟩
    · rintro (h | ⟨c', hc' | hc', hx⟩)
      · exact Or.inl (Or.inr h)
      · subst hc'; exact Or.inl (Or.inl hx.symm)
      · exact Or.inr ⟨c', hc', hx⟩

theorem keys_columns_data (columns : List ColSpec) (x : String) :
    x ∈ dictKeys (columns_data columns) ↔ ∃ c ∈ columns, c.id = x := by
  have h := keys_columns_data_aux columns [] x
  simpa [columns_data, dictKeys] using h

theorem mem_columns_data_aux (columns : List ColSpec) (acc : List (String × String))
    (p : String × String) :
    p ∈ columns.foldl (fun acc c => dictInsert c.id (colType c) acc) acc →
      p ∈ acc ∨ ∃ c ∈ columns, p = (c.id, colType c) := by
  induction columns generalizing acc with
  | nil => simp
  | cons c cs ih =>
    rw [List.foldl_cons]
    intro h
    rcases ih _ h with h' | ⟨c', hc', hp⟩
    · rcases mem_dictInsert_sub _ _ _ _ h' with h'' | h''
      · exact Or.inr ⟨c, List.mem_cons_self _ _, h''⟩
      · exact Or.inl h''
    · exact Or.inr ⟨c', List.mem_cons_of_mem _ hc', hp⟩

theorem mem_columns_data (columns : List ColSpec) (p : String × String) :
    p ∈ columns_data columns → ∃ c ∈ columns, p = (c.id, colType c) := by
  intro h
  rcases mem_columns_data_aux columns [] p h with h' | h'
  · simp at h'
  · exact h'

theorem keys_newColsFor_aux (ex : List String) (columns : List ColSpec)
    (acc : List (String × String)) (x : String) :
    (x ∈ dictKeys (columns.foldl
        (fun acc c => if ex.contains c.id then acc else dictInsert c.id (colType c) acc)
        acc)) ↔
      x ∈ dictKeys acc ∨ ((∃ c ∈ columns, c.id = x) ∧ ex.contains x = false) := by
  induction columns generalizing acc with
  | nil => simp
  | cons c cs ih =>
    rw [List.foldl_cons]
    by_cases hc : ex.contains c.id
    · rw [if_pos hc, ih]
      simp only [List.mem_cons]
      constructor
      · rintro (h | ⟨⟨c', hc', hx⟩, hex⟩)
        · exact Or.inl h
        · exact Or.inr ⟨⟨c', Or.inr hc', hx⟩, hex⟩
      · rintro (h | ⟨⟨c', hc' | hc', hx⟩, hex⟩)
        · exact Or.inl h
        · subst hc'
          rw [hx] at hc
          rw [hc] at hex
          exact absurd hex (by simp)
        · exact Or.inr ⟨⟨c', hc', hx⟩, hex⟩
    · rw [if_neg hc, ih, dictKeys_dictInsert]
      simp only [List.mem_cons]
      constructor
      · rintro (⟨h | h⟩ | ⟨⟨c', hc', hx⟩, hex⟩)
        · subst h
          exact Or.inr ⟨⟨c, Or.inl rfl, rfl⟩, by simpa using hc⟩
        · exact Or.inl h
        · exact Or.inr ⟨⟨c', Or.inr hc', hx⟩, hex⟩
      · rintro (h | ⟨⟨c', hc' | hc', hx⟩, hex⟩)
        · exact Or.inl (Or.inr h)
        · subst hc'; exact Or.inl (Or.inl hx.symm)
        · exact Or.inr ⟨⟨c', hc', hx⟩, hex⟩

theorem keys_newColsFor (ex : List String) (columns : List ColSpec) (x : String) :
    x ∈ dictKeys (newColsFor ex columns) ↔
      (∃ c ∈ columns, c.id = x) ∧ ex.contains x = false := by
  have h := keys_newColsFor_aux ex columns [] x
  simpa [newColsFor, dictKeys] using h

theorem newColsFor_all_present_aux (ex : List String) (columns : List ColSpec)
    (acc : List (String × String)) (h : ∀ c ∈ columns, ex.contains c.id = true) :
    columns.foldl
        (fun acc c => if ex.contains c.id then acc else dictInsert c.id (colType c) acc)
        acc = acc := by
  induction columns generalizing acc with
  | nil => rfl
  | cons c cs ih =>
    rw [List.foldl_cons, if_pos (h c (List.mem_cons_self _ _))]
    exact ih _ (fun c' hc' => h c' (List.mem_cons_of_mem _ hc'))

theorem newColsFor_all_present (ex : List String) (columns : List ColSpec)
    (h : ∀ c ∈ columns, ex.contains c.id = true) : newColsFor ex columns = [] :=
  newColsFor_all_present_aux ex columns [] h

theorem lookup_map_update {γ : Type} (tid : String) (f : γ → γ) (l : List (String × γ)) :
    List.lookup tid (l.map (fun nt => if nt.1 = tid then (nt.1, f nt.2) else nt)) =
      (List.lookup tid l).map f := by
  induction l with
  | nil => rfl
  | cons hd tl ih =>
    obtain ⟨k, v⟩ := hd
    by_cases hk : k = tid
    · subst hk
      rw [List.map_cons, if_pos (rfl : (k, v).1 = k)]
      simp [List.lookup, ih]
    · have hb : (tid == k) = false := by simp [Ne.symm hk]
      rw [List.map_cons, if_neg (show ¬ (k, v).1 = tid from hk)]
      simp [List.lookup, hb, ih]

theorem dictKeys_map_update {γ : Type} (tid : String) (f : γ → γ) (l : List (String × γ)) :
    dictKeys (l.map (fun nt => if nt.1 = tid then (nt.1, f nt.2) else nt)) = dictKeys l := by
  induction l with
  | nil => rfl
  | cons hd tl ih =>
    by_cases h : hd.1 = tid <;> simpa [dictKeys, h] using ih

theorem lookup_append_right {γ : Type} (tid : String) (l : List (String × γ)) (t : γ)
    (h : ¬ tid ∈ dictKeys l) : List.lookup tid (l ++ [(tid, t)]) = some t := by
  induction l with
  | nil => simp [List.lookup]
  | cons hd tl ih =>
    obtain ⟨k, v⟩ := hd
    have hk : ¬ tid = k := by
      intro e
      exact h (by simp [dictKeys, e])
    have hb : (tid == k) = false := by simp [hk]
    have h' : ¬ tid ∈ dictKeys tl := by
      intro e
      exact h (by simp [dictKeys] at e ⊢; exact Or.inr e)
    simp [List.cons_append, List.lookup, hb, ih h']

theorem exists_lookup_of_mem_keys {γ : Type} (l : List (String × γ)) (a : String)
    (h : a ∈ dictKeys l) : ∃ v, List.lookup a l = some v := by
  induction l with
  | nil => simp [dictKeys] at h
  | cons hd tl ih =>
    obtain ⟨k, v⟩ := hd
    by_cases hk : a = k
    · subst hk
      exact ⟨v, by simp [List.lookup]⟩
    · have hb : (a == k) = false := by simp [hk]
      have h' : a ∈ dictKeys tl := by
        simp [dictKeys] at h
        rcases h with h | h
        · exact absurd h hk
        · simpa [dictKeys] using h
      obtain ⟨w, hw⟩ := ih h'
      exact ⟨w, by simp [List.lookup, hb, hw]⟩

theorem listTables_patchEffect (doc : DocState) (tid : String)
    (nc : List (String × String)) : listTables (patchEffect doc tid nc) = listTables doc := by
  show dictKeys (doc.tables.map
      (fun nt => if nt.1 = tid then (nt.1, { nt.2 with cols := nt.2.cols ++ nc }) else nt)) =
    dictKeys doc.tables
  exact dictKeys_map_update tid (fun s : TableState => { s with cols := s.cols ++ nc }) doc.tables

theorem lookupTable_patchEffect (doc : DocState) (tid : String) (nc : List (String × String))
    (h : tid ∈ listTables doc) :
    lookupTable (patchEffect doc tid nc) tid =
      { cols := (lookupTable doc tid).cols ++ nc, rows := (lookupTable doc tid).rows } := by
  obtain ⟨t, ht⟩ := exists_lookup_of_mem_keys doc.tables tid h
  have hm := lookup_map_update tid (fun s => { s with cols := s.cols ++ nc }) doc.tables
  simp only [patchEffect, lookupTable] at *
  rw [hm, ht]
  rfl

theorem tableColIds_patchEffect (doc : DocState) (tid : String) (nc : List (String × String))
    (h : tid ∈ listTables doc) :
    tableColIds (patchEffect doc tid nc) tid = tableColIds doc tid ++ dictKeys nc := by
  rw [tableColIds, lookupTable_patchEffect doc tid nc h]
  simp [tableColIds, dictKeys]

theorem listTables_addRecords (doc : DocState) (tid : String) (records : List Record) :
    listTables (add_records doc tid records).1 = listTables doc := by
  show dictKeys (doc.tables.map
      (fun nt => if nt.1 = tid then (nt.1, { nt.2 with rows := nt.2.rows ++ records }) else nt)) =
    dictKeys doc.tables
  exact dictKeys_map_update tid (fun s : TableState => { s with rows := s.rows ++ records })
    doc.tables

theorem lookupTable_addRecords (doc : DocState) (tid : String) (records : List Record)
    (h : tid ∈ listTables doc) :
    lookupTable (add_records doc tid records).1 tid =
      { cols := (lookupTable doc tid).cols, rows := (lookupTable doc tid).rows ++ records } := by
  obtain ⟨t, ht⟩ := exists_lookup_of_mem_keys doc.tables tid h
  have hm := lookup_map_update tid (fun s => { s with rows := s.rows ++ records }) doc.tables
  simp only [add_records, lookupTable] at *
  rw [hm, ht]
  rfl

theorem ensure_table_absent (doc : DocState) (tid : String) (columns : List ColSpec)
    (h : (listTables doc).contains tid = false) :
    ensure_table doc tid columns =
      ({ tables := doc.tables ++ [(tid, { cols := columns_data columns, rows := [] })] },
       [.getTables, .postTable tid (columns_data columns)]) := by
  have hcond : ¬ ((listTables doc).contains tid = true) := by rw [h]; simp
  simp only [ensure_table]
  rw [if_neg hcond]
  rfl

theorem ensure_table_present_none (doc : DocState) (tid : String) (columns : List ColSpec)
    (h : (listTables doc).contains tid = true)
    (h2 : newColsFor (tableColIds doc tid) columns = []) :
    ensure_table doc tid columns = (doc, [.getTables, .getColumns tid]) := by
  have h2' : newColsFor ((lookupTable doc tid).cols.map Prod.fst) columns = [] := h2
  have hemp : (newColsFor ((lookupTable doc tid).cols.map Prod.fst) columns).isEmpty = true := by
    simp [h2']
  simp only [ensure_table]
  rw [if_pos h, if_pos hemp]

theorem ensure_table_present_patch (doc : DocState) (tid : String) (columns : List ColSpec)
    (h : (listTables doc).contains tid = true)
    (h2 : ¬ newColsFor (tableColIds doc tid) columns = []) :
    ensure_table doc tid columns =
      (patchEffect doc tid (newColsFor (tableColIds doc tid) columns),
       [.getTables, .getColumns tid,
        .patchColumns tid (newColsFor (tableColIds doc tid) columns)]) := by
  have h2' : ¬ newColsFor ((lookupTable doc tid).cols.map Prod.fst) columns = [] := h2
  have hemp : ¬ ((newColsFor ((lookupTable doc tid).cols.map Prod.fst) columns).isEmpty = true) := by
    simp [h2']
  simp only [ensure_table]
  rw [if_pos h, if_neg hemp]
  rfl

theorem tableColIds_create (doc : DocState) (tid : String) (columns : List ColSpec)
    (h : ¬ tid ∈ listTables doc) :
    tableColIds (create_table doc tid columns).1 tid = dictKeys (columns_data columns) := by
  simp only [create_table, tableColIds, lookupTable]
  rw [lookup_append_right _ _ _ (by simpa [dictKeys, listTables] using h)]
  simp [dictKeys]

theorem ensure_table_mem (doc : DocState) (tid : String) (columns : List ColSpec) :
    tid ∈ listTables (ensure_table doc tid columns).1 := by
  by_cases h : (listTables doc).contains tid = true
  · have hmem : tid ∈ listTables doc := by simpa using h
    by_cases h2 : newColsFor (tableColIds doc tid) columns = []
    · rw [ensure_table_present_none doc tid columns h h2]
      exact hmem
    · rw [ensure_table_present_patch doc tid columns h h2, listTables_patchEffect]
      exact hmem
  · rw [ensure_table_absent doc tid columns (by simpa using h)]
    simp [listTables]

theorem ensure_table_superset (doc : DocState) (tid : String) (columns : List ColSpec) :
    ∀ c ∈ columns, c.id ∈ tableColIds (ensure_table doc tid columns).1 tid := by
  intro c hc
  by_cases h : (listTables doc).contains tid = true
  · have hmem : tid ∈ listTables doc := by simpa using h
    by_cases h2 : newColsFor (tableColIds doc tid) columns = []
    · rw [ensure_table_present_none doc tid columns h h2]
      by_contra hnot
      have hmemk : c.id ∈ dictKeys (newColsFor (tableColIds doc tid) columns) :=
        (keys_newColsFor _ _ _).mpr ⟨⟨c, hc, rfl⟩, by simpa using hnot⟩
      rw [h2] at hmemk
      simp [dictKeys] at hmemk
    · rw [ensure_table_present_patch doc tid columns h h2,
        tableColIds_patchEffect doc tid _ hmem]
      by_cases hin : c.id ∈ tableColIds doc tid
      · exact List.mem_append_left _ hin
      · exact List.mem_append_right _
          ((keys_newColsFor _ _ _).mpr ⟨⟨c, hc, rfl⟩, by simpa using hin⟩)
  · have hnm : ¬ tid ∈ listTables doc := by simpa using h
    rw [ensure_table_absent doc tid columns (by simpa using h)]
    have := tableColIds_create doc tid columns hnm
    rw [show create_table doc tid columns =
        ({ tables := doc.tables ++ [(tid, { cols := columns_data columns, rows := [] })] },
         [.postTable tid (columns_data columns)]) from rfl] at this
    rw [show tableColIds
        { tables := doc.tables ++ [(tid, { cols := columns_data columns, rows := [] })] } tid =
          dictKeys (columns_data columns) from this]
    exact (keys_columns_data columns c.id).mpr ⟨c, hc, rfl⟩

theorem find_eq_headFilter {α : Type} (p : α → Bool) (l : List α) :
    l.find? p = (l.filter p).head? := by
  induction l with
  | nil => rfl
  | cons hd tl ih =>
    by_cases h : p hd
    · rw [List.find?_cons_of_pos _ h, List.filter_cons_of_pos h]
      simp
    · rw [List.find?_cons_of_neg _ h, List.filter_cons_of_neg h, ih]

/-! ### Claim theorems -/

/-- C2: for every non-empty list of records, `infer_columns_from_data` returns
exactly one column per key of the first record, in that record's key order,
with each column's id equal to the key; records after the first have no
influence on the result. -/
theorem infer_columns_from_data_first_record (iso : String → Bool) (sample : Record)
    (rest rest' : List Record) :
    ((infer_columns_from_data iso (sample :: rest)).map ColSpec.id = recordKeys sample) ∧
    ((infer_columns_from_data iso (sample :: rest)).length = (recordKeys sample).length) ∧
    (infer_columns_from_data iso (sample :: rest) =
      infer_columns_from_data iso (sample :: rest')) := by
  refine ⟨?_, ?_, rfl⟩
  · show (sample.map
        (fun kv => ({ id := kv.1, typ := some (inferColType iso kv.2) } : ColSpec))).map
          ColSpec.id = sample.map Prod.fst
    rw [List.map_map]
    rfl
  · show (sample.map _).length = (sample.map Prod.fst).length
    rw [List.length_map, List.length_map]

/-- C3: the column type assigned by `infer_columns_from_data` to each value of
the first record: `Bool` for booleans (the `bool` test precedes the `int` test,
so a boolean is never typed `Int` although `isinstanceInt` also accepts it),
`Int` for other ints, `Numeric` for floats, `DateTime` for datetimes and for
strings accepted by `fromisoformat` after `Z`-replacement, `Text` for other
strings and for everything else including `None`. -/
theorem infer_columns_from_data_types (iso : String → Bool) (sample : Record)
    (rest : List Record) :
    (infer_columns_from_data iso (sample :: rest) =
      sample.map (fun kv => { id := kv.1, typ := some (inferColType iso kv.2) })) ∧
    (∀ b, inferColType iso (.vBool b) = "Bool") ∧
    (∀ b, isinstanceInt (.vBool b) = true) ∧
    (∀ n : Int, inferColType iso (.vInt n) = "Int") ∧
    (inferColType iso .vFloat = "Numeric") ∧
    (inferColType iso .vDatetime = "DateTime") ∧
    (∀ s, iso (replaceZ s) = true → inferColType iso (.vStr s) = "DateTime") ∧
    (∀ s, iso (replaceZ s) = false → inferColType iso (.vStr s) = "Text") ∧
    (inferColType iso .vNone = "Text") ∧
    (inferColType iso .vOther = "Text") := by
  refine ⟨rfl, fun b => rfl, fun b => rfl, fun n => rfl, rfl, rfl, ?_, ?_, rfl, rfl⟩
  · intro s hs
    simp [inferColType, isinstanceBool, isinstanceInt, isinstanceFloat, isinstanceDatetime,
      isinstanceStr, strVal, hs]
  · intro s hs
    simp [inferColType, isinstanceBool, isinstanceInt, isinstanceFloat, isinstanceDatetime,
      isinstanceStr, strVal, hs]

/-- C5: `upsert_records` performs exactly the same operation as `add_records`
and returns the same result for every value of `key_columns`; it only appends
the records to the table's rows and never matches or updates existing rows. -/
theorem upsert_records_is_add_records (doc : DocState) (tid : String)
    (records : List Record) (key_columns : Option (List String)) :
    (upsert_records doc tid records key_columns = add_records doc tid records) ∧
    ((upsert_records doc tid records key_columns).2.1 = [.postRecords tid records]) ∧
    (tid ∈ listTables doc →
      (lookupTable (upsert_records doc tid records key_columns).1 tid).rows =
        (lookupTable doc tid).rows ++ records ∧
      (lookupTable (upsert_records doc tid records key_columns).1 tid).cols =
        (lookupTable doc tid).cols) := by
  have heq : upsert_records doc tid records key_columns = add_records doc tid records := by
    cases key_columns <;> rfl
  refine ⟨heq, by rw [heq]; rfl, ?_⟩
  intro h
  rw [heq, lookupTable_addRecords doc tid records h]
  exact ⟨rfl, rfl⟩

/-- C6: `_request` issues exactly one HTTP request per call (the request
count rises by one and exactly one entry joins the log) and raises an
exception if and only if the response has a non-success (4xx or 5xx) status;
no request is reissued after a failure. -/
theorem request_one_http_no_retry (c : GristClientCfg) (hs : HttpState)
    (method endpoint : String) :
    ((_request c hs method endpoint).2.count = hs.count + 1) ∧
    ((_request c hs method endpoint).2.log = hs.log ++ [(method, base_url c ++ endpoint)]) ∧
    (((_request c hs method endpoint).1.isOk = true) ↔ (hs.oracle hs.count).status < 400) ∧
    ((_request c hs method endpoint).1 =
        .error (.statusError (hs.oracle hs.count).status) ↔
      400 ≤ (hs.oracle hs.count).status) := by
  by_cases h : 400 ≤ (hs.oracle hs.count).status
  · have hred : _request c hs method endpoint =
        (.error (.statusError (hs.oracle hs.count).status),
         { oracle := hs.oracle, count := hs.count + 1,
           log := hs.log ++ [(method, base_url c ++ endpoint)] }) := by
      simp only [_request, httpSend, raise_for_status, if_pos h]
    rw [hred]
    refine ⟨rfl, rfl, ?_, ?_⟩
    · simp [Except.isOk, Except.toBool]
      omega
    · simpa using h
  · have hred : _request c hs method endpoint =
        (.ok (hs.oracle hs.count).body,
         { oracle := hs.oracle, count := hs.count + 1,
           log := hs.log ++ [(method, base_url c ++ endpoint)] }) := by
      simp only [_request, httpSend, raise_for_status, if_neg h]
    rw [hred]
    refine ⟨rfl, rfl, ?_, ?_⟩
    · simp [Except.isOk, Except.toBool]
      omega
    · simpa using h

/-- C7: `get_or_create_document` returns the first document in listing order
whose name equals `doc_name` when one exists (issuing no creation request),
and issues a document-creation request exactly when no listed document has
that name. -/
theorem get_or_create_document_first_match (docs : List DocInfo)
    (doc_name freshId : String) :
    ((∃ d ∈ docs, d.name = doc_name) →
      some (get_or_create_document docs doc_name freshId).1 =
        (docs.filter (fun d => d.name = doc_name)).head? ∧
      (get_or_create_document docs doc_name freshId).2.2 = [.getDocs] ∧
      (get_or_create_document docs doc_name freshId).2.1 = docs) ∧
    ((∀ d ∈ docs, ¬ d.name = doc_name) →
      (get_or_create_document docs doc_name freshId).2.2 = [.getDocs, .postDoc doc_name] ∧
      (get_or_create_document docs doc_name freshId).1 =
        { id := freshId, name := doc_name }) := by
  constructor
  · rintro ⟨d, hd, hname⟩
    have hsome : (docs.find? (fun d => d.name = doc_name)).isSome := by
      rw [List.find?_isSome]
      exact ⟨d, hd, by simp [hname]⟩
    obtain ⟨d', hd'⟩ := Option.isSome_iff_exists.mp hsome
    rw [find_eq_headFilter] at hd'
    simp [get_or_create_document, find_eq_headFilter, hd']
  · intro hnone
    have hfind : docs.find? (fun d => d.name = doc_name) = none := by
      rw [List.find?_eq_none]
      intro d hd
      simp [hnone d hd]
    simp [get_or_create_document, hfind]

/-- C9 counterexample: `create_sample_board.main` writes its generated
records as a single data sheet with no auxiliary reference sheet, so it is
not the case that each of the three generator scripts writes auxiliary
reference sheets alongside its records. -/
theorem create_sample_board_no_auxiliary_sheet :
    hasRecordsSheet create_sample_board_sheets = true ∧
    hasAuxiliarySheet create_sample_board_sheets = false ∧
    hasAuxiliarySheet create_msm_board_sheets = false := by decide

/-- C9 amended: each of the three sample-data generator scripts writes its
generated records to a spreadsheet file; `create_monday_import_file`
additionally writes two auxiliary reference sheets (`Column Mapping` and
`Instructions`), while `create_sample_board.main` and `create_msm_board.main`
write only the single data sheet. -/
theorem board_scripts_sheet_layout :
    (hasRecordsSheet create_monday_import_file_sheets = true ∧
     hasAuxiliarySheet create_monday_import_file_sheets = true ∧
     create_monday_import_file_sheets.length = 3) ∧
    (hasRecordsSheet create_sample_board_sheets = true ∧
     hasAuxiliarySheet create_sample_board_sheets = false ∧
     create_sample_board_sheets.length = 1) ∧
    (hasRecordsSheet create_msm_board_sheets = true ∧
     hasAuxiliarySheet create_msm_board_sheets = false ∧
     create_msm_board_sheets.length = 1) := by decide

/-- C10: on an empty data list the pipeline performs no remote effect:
`send_to_grist` returns with no client constructed, no request issued, no
result and the remote state unchanged, and `infer_columns_from_data` returns
the empty column list. -/
theorem send_to_grist_empty_noop (iso : String → Bool) (st : WorkspaceState)
    (doc_name table_name : String) (upsert : Bool) (kc : Option (List String))
    (timestamp freshId : String) :
    (send_to_grist iso st [] doc_name table_name upsert kc timestamp freshId =
      { state := st, requests := [], clientConstructed := false, uploaded := none,
        result := none }) ∧
    infer_columns_from_data iso [] = [] :=
  ⟨rfl, rfl⟩

theorem addScrapedAt_get (timestamp : String) (data : List Record) (i : Nat) :
    (addScrapedAt timestamp data).get? i = (data.get? i).map
      (fun rc => if (recordKeys rc).contains "scraped_at" then rc
                 else rc ++ [("scraped_at", PyValue.vStr timestamp)]) := by
  simp [addScrapedAt]

/-- C8: on non-empty data, `send_to_grist` uploads exactly the input records
augmented by the timestamp loop: each record lacking a `scraped_at` key
receives one, bearing the single timestamp taken before the loop; records
already carrying `scraped_at` are passed through unchanged, and all other
fields of every record are unchanged (an untouched record stays equal, a
stamped one is the original with a single pair appended). -/
theorem send_to_grist_stamps_records (iso : String → Bool) (st : WorkspaceState)
    (r : Record) (rest : List Record) (doc_name table_name : String) (upsert : Bool)
    (kc : Option (List String)) (timestamp freshId : String) :
    ((send_to_grist iso st (r :: rest) doc_name table_name upsert kc timestamp
        freshId).uploaded = some (addScrapedAt timestamp (r :: rest))) ∧
    ((addScrapedAt timestamp (r :: rest)).length = (r :: rest).length) ∧
    (∀ i rec, (r :: rest).get? i = some rec →
      (((recordKeys rec).contains "scraped_at" = true →
          (addScrapedAt timestamp (r :: rest)).get? i = some rec) ∧
       ((recordKeys rec).contains "scraped_at" = false →
          (addScrapedAt timestamp (r :: rest)).get? i =
            some (rec ++ [("scraped_at", PyValue.vStr timestamp)])))) := by
  refine ⟨?_, by simp [addScrapedAt], ?_⟩
  · simp only [send_to_grist]
    rw [if_neg (by simp : ¬ (((r :: rest) : List Record).isEmpty = true))]
  · intro i rec hrec
    have hmap := addScrapedAt_get timestamp (r :: rest) i
    constructor
    · intro hkey
      have hm : "scraped_at" ∈ recordKeys rec := by simpa using hkey
      rw [hmap, hrec]
      simp [hm]
    · intro hkey
      have hm : ¬ "scraped_at" ∈ recordKeys rec := by simpa using hkey
      rw [hmap, hrec]
      simp [hm]

/-- C1: after `ensure_table` the table exists and its column ids cover every
required column id.  When the table was absent, it is created by a single
table-creation request carrying exactly the required columns, each typed by
`col.get("type", "Text")`.  When it was present, the requests are the two
reads plus at most one columns-patch request, issued exactly when some
required id is missing and carrying exactly the required columns whose ids
are not in the existing schema. -/
theorem ensure_table_spec (doc : DocState) (tid : String) (columns : List ColSpec) :
    (tid ∈ listTables (ensure_table doc tid columns).1) ∧
    (∀ c ∈ columns, c.id ∈ tableColIds (ensure_table doc tid columns).1 tid) ∧
    ((listTables doc).contains tid = false →
      (ensure_table doc tid columns).2 =
        [.getTables, .postTable tid (columns_data columns)] ∧
      lookupTable (ensure_table doc tid columns).1 tid =
        { cols := columns_data columns, rows := [] } ∧
      (∀ x, x ∈ dictKeys (columns_data columns) ↔ ∃ c ∈ columns, c.id = x) ∧
      (∀ p ∈ columns_data columns, ∃ c ∈ columns, p = (c.id, colType c)) ∧
      (∀ c : ColSpec, c.typ = none → colType c = "Text")) ∧
    ((listTables doc).contains tid = true →
      ((ensure_table doc tid columns).2.filter Request.isPostTable = []) ∧
      (ensure_table doc tid columns).2 =
        (if (newColsFor (tableColIds doc tid) columns).isEmpty
         then [.getTables, .getColumns tid]
         else [.getTables, .getColumns tid,
               .patchColumns tid (newColsFor (tableColIds doc tid) columns)]) ∧
      (∀ x, x ∈ dictKeys (newColsFor (tableColIds doc tid) columns) ↔
        ((∃ c ∈ columns, c.id = x) ∧ ¬ x ∈ tableColIds doc tid)) ∧
      tableColIds (ensure_table doc tid columns).1 tid =
        tableColIds doc tid ++ dictKeys (newColsFor (tableColIds doc tid) columns)) := by
  refine ⟨ensure_table_mem doc tid columns, ensure_table_superset doc tid columns, ?_, ?_⟩
  · intro h
    have habs := ensure_table_absent doc tid columns h
    refine ⟨by rw [habs], ?_, keys_columns_data columns, mem_columns_data columns, ?_⟩
    · rw [habs]
      show ((doc.tables ++
          [(tid, ({ cols := columns_data columns, rows := [] } : TableState))]).lookup tid).getD
            ({ cols := [], rows := [] } : TableState) = _
      rw [lookup_append_right tid doc.tables _ (by simpa [dictKeys, listTables] using h)]
      rfl
    · intro c hc
      simp [colType, hc]
  · intro h
    by_cases h2 : newColsFor (tableColIds doc tid) columns = []
    · have hred := ensure_table_present_none doc tid columns h h2
      rw [hred]
      refine ⟨rfl, ?_, ?_, ?_⟩
      · rw [h2]
        rfl
      · intro x
        rw [keys_newColsFor]
        simp
      · rw [h2]
        simp [dictKeys]
    · have hred := ensure_table_present_patch doc tid columns h h2
      rw [hred]
      refine ⟨rfl, ?_, ?_, ?_⟩
      · rw [if_neg (by simpa using h2)]
      · intro x
        rw [keys_newColsFor]
        simp
      · exact tableColIds_patchEffect doc tid _ (by simpa using h)

/-- C4: `ensure_table` is idempotent on the modeled remote state: re-running
it with the same arguments right after a first run issues only the two read
requests (no table-creation and no column-addition request) and leaves the
modeled state unchanged. -/
theorem ensure_table_idempotent (doc : DocState) (tid : String) (columns : List ColSpec) :
    (ensure_table (ensure_table doc tid columns).1 tid columns =
      ((ensure_table doc tid columns).1, [.getTables, .getColumns tid])) ∧
    ((ensure_table (ensure_table doc tid columns).1 tid columns).2.filter
        Request.isPostTable = []) ∧
    ((ensure_table (ensure_table doc tid columns).1 tid columns).2.filter
        Request.isPatchColumns = []) := by
  have hmem : tid ∈ listTables (ensure_table doc tid columns).1 :=
    ensure_table_mem doc tid columns
  have hall : ∀ c ∈ columns,
      (tableColIds (ensure_table doc tid columns).1 tid).contains c.id = true := by
    intro c hc
    simpa using ensure_table_superset doc tid columns c hc
  have h2 : newColsFor (tableColIds (ensure_table doc tid columns).1 tid) columns = [] :=
    newColsFor_all_present _ _ hall
  have hred := ensure_table_present_none (ensure_table doc tid columns).1 tid columns
    (by simpa using hmem) h2
  exact ⟨hred, by rw [hred]; rfl, by rw [hred]; rfl⟩

end AbsScrape
